import Mathlib

/-!
Shallow embedding of the grpc-web middleware crate (src/codec.rs, src/config.rs,
src/lib.rs): the gRPC-Web frame codec (base64 re-blocking decoder, chunk-local
encoder, synthesized trailers frame), the CORS policy engine, the request
classifier and the dispatcher.  Bytes are modelled as `Nat` (values < 256),
byte strings as `List Nat`, header maps as association lists.
-/

deriving instance DecidableEq for Except

namespace GrpcWeb

/-- Bytes of a Lean string literal (used for ASCII constants from the source). -/
def strBytes (s : String) : List Nat :=
  s.toList.map Char.toNat

/-! ## base64 (models the `base64` crate's standard alphabet with `=` padding,
on the inputs this crate feeds it: `base64::decode` is only ever called on
buffers whose length is a multiple of 4, and `base64::encode` on whole chunks). -/

/-- Standard base64 alphabet: 6-bit value to ASCII code. -/
def b64EncChar (v : Nat) : Nat :=
  if v < 26 then 65 + v
  else if v < 52 then 97 + (v - 26)
  else if v < 62 then 48 + (v - 52)
  else if v = 62 then 43
  else 47

/-- Standard base64 alphabet: ASCII code to 6-bit value; `none` for a byte
outside the alphabet (including the pad byte `=`). -/
def b64DecChar (c : Nat) : Option Nat :=
  if 65 ≤ c ∧ c ≤ 90 then some (c - 65)
  else if 97 ≤ c ∧ c ≤ 122 then some (c - 71)
  else if 48 ≤ c ∧ c ≤ 57 then some (c + 4)
  else if c = 43 then some 62
  else if c = 47 then some 63
  else none

/-- `base64::encode`: 3-byte groups to 4 alphabet bytes, with `=` padding for a
final group of 1 or 2 bytes. -/
def b64encode : List Nat → List Nat
  | b1 :: b2 :: b3 :: rest =>
    b64EncChar (b1 / 4) :: b64EncChar (b1 % 4 * 16 + b2 / 16) ::
      b64EncChar (b2 % 16 * 4 + b3 / 64) :: b64EncChar (b3 % 64) :: b64encode rest
  | [b1, b2] => [b64EncChar (b1 / 4), b64EncChar (b1 % 4 * 16 + b2 / 16), b64EncChar (b2 % 16 * 4), 61]
  | [b1] => [b64EncChar (b1 / 4), b64EncChar (b1 % 4 * 16), 61, 61]
  | [] => []

/-- Decode one 4-byte base64 group.  `isLast` says whether this is the final
group of the input: the pad byte `=` (ASCII 61) is only legal there, and
non-zero discarded trailing bits are rejected (the crate's default config). -/
def decodeGroup (c1 c2 c3 c4 : Nat) (isLast : Bool) : Option (List Nat) :=
  match b64DecChar c1, b64DecChar c2 with
  | some v1, some v2 =>
    if c3 = 61 then
      if c4 = 61 && isLast && decide (v2 % 16 = 0) then some [v1 * 4 + v2 / 16] else none
    else
      match b64DecChar c3 with
      | some v3 =>
        if c4 = 61 then
          if isLast && decide (v3 % 4 = 0) then
            some [v1 * 4 + v2 / 16, v2 % 16 * 16 + v3 / 4]
          else none
        else
          match b64DecChar c4 with
          | some v4 => some [v1 * 4 + v2 / 16, v2 % 16 * 16 + v3 / 4, v3 % 4 * 64 + v4]
          | none => none
      | none => none
  | _, _ => none

/-- `base64::decode` on the group-aligned inputs the codec supplies: the input
is consumed in 4-byte groups; a trailing group of 1-3 bytes is rejected. -/
def b64decode : List Nat → Option (List Nat)
  | [] => some []
  | c1 :: c2 :: c3 :: c4 :: rest =>
    match decodeGroup c1 c2 c3 c4 rest.isEmpty, b64decode rest with
    | some bs, some more => some (bs ++ more)
    | _, _ => none
  | _ => none

/-! ## Status and the trailers frame (src/codec.rs) -/

/-- `volo_grpc::Status`, restricted to the internal errors this crate builds. -/
inductive Status where
  | internal (msg : String)
deriving DecidableEq, Repr

/-- `internal_error` (codec.rs): wraps a message as an internal status. -/
def internal_error (e : String) : Status :=
  .internal ("grpc-web: " ++ e)

/-- `GRPC_WEB_TRAILERS_BIT`: the frame-flag byte `0b10000000`. -/
def GRPC_WEB_TRAILERS_BIT : Nat := 128

/-- Big-endian 4-byte encoding of a `u32` (`BufMut::put_u32`). -/
def be32 (n : Nat) : List Nat :=
  [n / 16777216 % 256, n / 65536 % 256, n / 256 % 256, n % 256]

/-- A `HeaderMap` in iteration order: a list of (name bytes, value bytes). -/
abbrev TrailerMap := List (List Nat × List Nat)

/-- `make_trailers_frame` (codec.rs): payload is each `name:value\r\n` line in
map iteration order; frame is the flag byte, a big-endian u32 length, then the
payload. -/
def make_trailers_frame (trailers : TrailerMap) : List Nat :=
  let payload := trailers.foldl (fun acc kv => acc ++ kv.1 ++ [58] ++ kv.2 ++ [13, 10]) []
  GRPC_WEB_TRAILERS_BIT :: be32 payload.length ++ payload

/-! ## Request-direction decoder (WebCall, Direction::Request, codec.rs) -/

/-- `WebCall::max_decodable`: largest multiple of 4 not exceeding the buffer
length. -/
def maxDecodable (buf : List Nat) : Nat :=
  buf.length / 4 * 4

/-- `WebCall::decode_chunk`: with fewer than 4 buffered bytes, produce nothing;
otherwise split off the largest 4-aligned prefix and base64-decode it.  Returns
the produced chunk (if any) and the remaining buffer. -/
def decode_chunk (buf : List Nat) : Except Status (Option (List Nat) × List Nat) :=
  if buf.isEmpty || buf.length < 4 then .ok (none, buf)
  else
    match b64decode (buf.take (maxDecodable buf)) with
    | some d => .ok (some d, buf.drop (maxDecodable buf))
    | none => .error (internal_error "invalid base64")

/-- Result of one poll of the body stream. -/
inductive PollR where
  | item (b : List Nat)
  | perr (e : Status)
  | eos
deriving DecidableEq, Repr

/-- The inner request body as a source stream: each pull yields either a data
chunk or a read error (hyper surfaces both through `poll_data`). -/
abbrev SourceChunk := Except String (List Nat)

/-- `WebCall::poll_decode`, `Encoding::Base64` arm: loop decoding buffered
bytes; when fewer than 4 are buffered, pull the next source chunk and append
it; a source read error is surfaced as an internal error; on source
exhaustion, a non-empty residue is a malformed-base64 error and an empty one a
clean end of stream.  The source is the remaining list of inner chunks;
returns the poll result together with the buffer and source left. -/
def poll_decode (buf : List Nat) (chunks : List SourceChunk) :
    PollR × List Nat × List SourceChunk :=
  match decode_chunk buf with
  | .error e => (.perr e, buf, chunks)
  | .ok (some d, buf2) => (.item d, buf2, chunks)
  | .ok (none, buf2) =>
    match chunks with
    | [] =>
      if buf2.isEmpty then (.eos, buf2, [])
      else (.perr (internal_error "malformed base64 request"), buf2, [])
    | .ok c :: cs => poll_decode (buf2 ++ c) cs
    | .error e :: cs => (.perr (internal_error e), buf2, cs)
termination_by chunks.length
decreasing_by simp

/-- `poll_decode` pulled to exhaustion: the list of emitted chunks, or the
first error.  This is the same loop as `poll_decode`, iterated until end of
stream (the bridge is proved in `drive_decode_poll_step`). -/
def drive_decode (buf : List Nat) (chunks : List SourceChunk) :
    Except Status (List (List Nat)) :=
  if h : buf.isEmpty || buf.length < 4 then
    match chunks with
    | [] =>
      if buf.isEmpty then .ok [] else .error (internal_error "malformed base64 request")
    | .ok c :: cs => drive_decode (buf ++ c) cs
    | .error e :: _ => .error (internal_error e)
  else
    match b64decode (buf.take (maxDecodable buf)) with
    | some d =>
      match drive_decode (buf.drop (maxDecodable buf)) chunks with
      | .ok outs => .ok (d :: outs)
      | .error e => .error e
    | none => .error (internal_error "invalid base64")
termination_by (chunks.length, buf.length)
decreasing_by
  · exact Prod.Lex.left _ _ (by simp)
  · apply Prod.Lex.right
    replace h : ¬ (buf.isEmpty || decide (buf.length < 4)) = true := h
    simp only [Bool.or_eq_true, decide_eq_true_eq, List.isEmpty_iff,
      not_or, not_lt] at h
    have hm : 4 ≤ maxDecodable buf := by
      unfold maxDecodable; omega
    simp only [List.length_drop]
    have hml : maxDecodable buf ≤ buf.length := by
      unfold maxDecodable; omega
    omega

/-! ## Response-direction encoder (WebCall, Direction::Response, codec.rs) -/

/-- `Encoding` (codec.rs). -/
inductive Encoding where
  | Base64
  | None
deriving DecidableEq, Repr

/-- The inner response body: its remaining data chunks (each a successful read
or a read error) and the result of polling its trailing metadata. -/
structure InnerBody where
  chunks : List SourceChunk
  trailers : Except String (Option TrailerMap)
deriving DecidableEq

/-- The response-direction `WebCall` state: the inner body, the negotiated
encoding, and the one-shot `poll_trailers` flag (initially `true`). -/
structure EncodeState where
  inner : InnerBody
  encoding : Encoding
  poll_trailers : Bool
deriving DecidableEq

/-- Result of one poll of the encoding body.  `data` and `trailerFrame` are
the two distinct `Poll::Ready(Some(Ok(..)))` sites of `poll_encode`: a
forwarded inner data chunk and the synthesized trailers frame. -/
inductive EncR where
  | data (b : List Nat)
  | trailerFrame (b : List Nat)
  | eerr (e : Status)
  | eos
deriving DecidableEq, Repr

/-- `WebCall::poll_encode` (codec.rs): forward the next inner data chunk,
base64-encoding it by itself when `encoding = Base64`; once the inner data is
exhausted and the one-shot flag is still set, poll the inner trailers and, if
present, emit `make_trailers_frame` (base64-encoded as a single unit when
`encoding = Base64`) and clear the flag; otherwise end the stream. -/
def poll_encode (s : EncodeState) : EncR × EncodeState :=
  match s.inner.chunks with
  | c :: cs =>
    let s2 : EncodeState := { s with inner := { s.inner with chunks := cs } }
    match c with
    | .ok d =>
      if s.encoding = Encoding.Base64 then (.data (b64encode d), s2) else (.data d, s2)
    | .error e => (.eerr (internal_error e), s2)
  | [] =>
    if s.poll_trailers then
      match s.inner.trailers with
      | .ok (some map) =>
        let frame := make_trailers_frame map
        let frame2 := if s.encoding = Encoding.Base64 then b64encode frame else frame
        (.trailerFrame frame2, { s with poll_trailers := false })
      | .ok none => (.eos, s)
      | .error e => (.eerr (internal_error e), s)
    else (.eos, s)

/-- `n + 1` successive polls of the encoding body: the result of the last poll
and the state after it. -/
def poll_encode_iter : EncodeState → Nat → EncR × EncodeState
  | s, 0 => poll_encode s
  | s, n + 1 => poll_encode_iter (poll_encode s).2 n

/-- `poll_encode` iterated until end of stream or the first error, collecting
every poll result along the way.  Each poll either consumes an inner chunk or
clears the one-shot flag, so `chunks.length + 2` polls always suffice. -/
def drive_encode_fuel : Nat → EncodeState → List EncR
  | 0, _ => []
  | fuel + 1, s =>
    match poll_encode s with
    | (.data b, s2) => .data b :: drive_encode_fuel fuel s2
    | (.trailerFrame b, s2) => .trailerFrame b :: drive_encode_fuel fuel s2
    | (.eerr e, _) => [.eerr e]
    | (.eos, _) => []

/-- The full output stream of the response-direction `WebCall`. -/
def drive_encode (s : EncodeState) : List EncR :=
  drive_encode_fuel (s.inner.chunks.length + 2) s

/-! ## Body::poll_trailers of WebCall (codec.rs:174-179) -/

/-- `Direction` (codec.rs). -/
inductive Direction where
  | Request
  | Response
deriving DecidableEq, Repr

/-- The full `WebCall` state: inner body, accumulation buffer, direction,
encoding and the one-shot trailers flag. -/
structure WebCallModel where
  innerChunks : List SourceChunk
  innerTrailers : Except String (Option TrailerMap)
  buf : List Nat
  direction : Direction
  encoding : Encoding
  poll_trailers : Bool
deriving DecidableEq

/-- `<WebCall as Body>::poll_trailers`: unconditionally
`Poll::Ready(Ok(None))`, whatever the state and the inner body. -/
def WebCallModel.body_poll_trailers (_ : WebCallModel) :
    Except Status (Option TrailerMap) :=
  .ok none

/-! ## Headers, media types, Encoding negotiation (lib.rs, codec.rs) -/

/-- Header value bytes. -/
abbrev HVal := List Nat

/-- A header map: association list from (lowercased) header name to value. -/
abbrev Headers := List (String × HVal)

/-- `HeaderMap::get`: first value stored under a name. -/
def getHeader (hs : Headers) (name : String) : Option HVal :=
  match hs with
  | [] => none
  | p :: ps => if p.1 = name then some p.2 else getHeader ps name

/-- `HeaderMap::insert`: replace any existing values under the name. -/
def insertH (hs : Headers) (name : String) (v : HVal) : Headers :=
  (name, v) :: hs.filter fun p => p.1 != name

/-- `HeaderMap::remove`. -/
def removeH (hs : Headers) (name : String) : Headers :=
  hs.filter fun p => p.1 != name

/-- `HeaderMap::extend`: insert every entry of the second map. -/
def extendH (hs : Headers) (more : Headers) : Headers :=
  more.foldl (fun acc p => insertH acc p.1 p.2) hs

/-- `HeaderValue::to_str`: succeeds iff every byte is visible ASCII or TAB. -/
def hvalToStr (v : HVal) : Option String :=
  if v.all fun b => (decide (32 ≤ b) && decide (b ≤ 126)) || b == 9 then
    some (String.mk (v.map Char.ofNat))
  else none

def GRPC_WEB : String := "application/grpc-web"

def GRPC_WEB_PROTO : String := "application/grpc-web+proto"

def GRPC_WEB_TEXT : String := "application/grpc-web-text"

def GRPC_WEB_TEXT_PROTO : String := "application/grpc-web-text+proto"

/-- `Encoding::from_header` (codec.rs): `Base64` exactly for the two `-text`
media types, `None` for everything else (missing header, non-ASCII value, or
any other value). -/
def Encoding.from_header (value : Option HVal) : Encoding :=
  match value.bind hvalToStr with
  | some s => if s = GRPC_WEB_TEXT_PROTO ∨ s = GRPC_WEB_TEXT then .Base64 else .None
  | _ => .None

/-- `Encoding::from_content_type`. -/
def Encoding.from_content_type (headers : Headers) : Encoding :=
  Encoding.from_header (getHeader headers "content-type")

/-- `Encoding::from_accept`. -/
def Encoding.from_accept (headers : Headers) : Encoding :=
  Encoding.from_header (getHeader headers "accept")

/-- `Encoding::to_content_type`. -/
def Encoding.to_content_type : Encoding → String
  | .Base64 => GRPC_WEB_TEXT_PROTO
  | .None => GRPC_WEB_PROTO

/-! ## Request classifier (lib.rs, RequestKind::new) -/

/-- HTTP versions (`http::Version`). -/
inductive HttpVersion where
  | HTTP_09
  | HTTP_10
  | HTTP_11
  | HTTP_2
  | HTTP_3
deriving DecidableEq, Repr

/-- `str::contains` on characters: `needle` occurs as a contiguous substring. -/
def containsSub (needle : List Char) : List Char → Bool
  | [] => needle.isEmpty
  | c :: cs => needle.isPrefixOf (c :: cs) || containsSub needle cs

/-- `str::contains`. -/
def strContains (hay needle : String) : Bool :=
  containsSub needle.toList hay.toList

/-- `RequestKind` (lib.rs). -/
inductive RequestKind where
  | InFlight (method : String) (encoding : Encoding) (accept : Encoding)
  | PreFlight (origin : HVal) (request_headers : HVal)
  | Other (version : HttpVersion)
deriving DecidableEq, Repr

/-- The `matches!` test of `RequestKind::new`: the Content-Type header, read
as a string, is one of the four gRPC-Web media types. -/
def isGrpcWebContentType (headers : Headers) : Bool :=
  match (getHeader headers "content-type").bind hvalToStr with
  | some s => s == GRPC_WEB || s == GRPC_WEB_PROTO || s == GRPC_WEB_TEXT || s == GRPC_WEB_TEXT_PROTO
  | _ => false

/-- `RequestKind::new` (lib.rs): gRPC-Web Content-Type wins; otherwise an
OPTIONS request with an Origin header and an `access-control-request-headers`
header mentioning `x-grpc-web` is a preflight; otherwise `Other`. -/
def RequestKind.new (headers : Headers) (method : String) (version : HttpVersion) :
    RequestKind :=
  if isGrpcWebContentType headers then
    .InFlight method (Encoding.from_content_type headers) (Encoding.from_accept headers)
  else
    match method, getHeader headers "origin", getHeader headers "access-control-request-headers" with
    | "OPTIONS", some origin, some value =>
      match hvalToStr value with
      | some h => if strContains h "x-grpc-web" then .PreFlight origin value else .Other version
      | none => .Other version
    | _, _, _ => .Other version

/-- Modelled from the spec: the four recognized gRPC-Web media types. -/
def recognizedMediaTypes : List String :=
  [GRPC_WEB, GRPC_WEB_PROTO, GRPC_WEB_TEXT, GRPC_WEB_TEXT_PROTO]

/-- Modelled from the spec: the two `-text` variants. -/
def textVariants : List String :=
  [GRPC_WEB_TEXT, GRPC_WEB_TEXT_PROTO]

/-- Modelled from the spec: encoding is `Base64` iff the header value is a
`-text` variant. -/
def encodingSpecRule (v : Option HVal) : Encoding :=
  match v.bind hvalToStr with
  | some s => if textVariants.contains s then .Base64 else .None
  | none => .None

/-- Modelled from the spec (§4.1): the classification rules as the spec words
them, to be compared with `RequestKind.new`. -/
def classifySpec (headers : Headers) (method : String) (version : HttpVersion) :
    RequestKind :=
  if ((getHeader headers "content-type").bind hvalToStr).any
      (fun s => recognizedMediaTypes.contains s) then
    .InFlight method (encodingSpecRule (getHeader headers "content-type"))
      (encodingSpecRule (getHeader headers "accept"))
  else if method == "OPTIONS" then
    match getHeader headers "origin", getHeader headers "access-control-request-headers" with
    | some origin, some rh =>
      if ((hvalToStr rh).any fun s => strContains s "x-grpc-web") then
        .PreFlight origin rh
      else .Other version
    | _, _ => .Other version
  else .Other version

/-! ## CORS policy (config.rs) -/

/-- `AllowedOrigins` (config.rs); the `BTreeSet` is modelled by its element
list. -/
inductive AllowedOrigins where
  | Any
  | Only (origins : List HVal)
deriving DecidableEq

/-- `AllowedOrigins::is_allowed`. -/
def AllowedOrigins.is_allowed : AllowedOrigins → HVal → Bool
  | .Any, _ => true
  | .Only origins, origin => origins.contains origin

/-- `Config` (config.rs); the `HashSet` of exposed header names is modelled by
its iteration sequence, `max_age` by its value in whole seconds. -/
structure Config where
  allowed_origins : AllowedOrigins
  exposed_headers : List String
  max_age : Option Nat
  allow_credentials : Bool
deriving DecidableEq

/-- `Config::new` / `Config::default`. -/
def Config.new : Config :=
  { allowed_origins := .Any
    exposed_headers := ["grpc-status", "grpc-message"]
    max_age := some 86400
    allow_credentials := true }

/-- `Error` (config.rs). -/
inductive CorsError where
  | OriginNotAllowed
  | MethodNotAllowed
deriving DecidableEq, Repr

/-- `join_header_value` (config.rs): comma-join. -/
def join_header_value (values : List String) : HVal :=
  match values with
  | [] => []
  | v :: vs => vs.foldl (fun acc w => acc ++ [44] ++ strBytes w) (strBytes v)

def ALLOW_ORIGIN : String := "access-control-allow-origin"

def ALLOW_HEADERS : String := "access-control-allow-headers"

def ALLOW_METHODS : String := "access-control-allow-methods"

def ALLOW_CREDENTIALS : String := "access-control-allow-credentials"

def EXPOSE_HEADERS : String := "access-control-expose-headers"

def MAX_AGE : String := "access-control-max-age"

def REQUEST_HEADERS : String := "access-control-request-headers"

def REQUEST_METHOD : String := "access-control-request-method"

/-- `Cors::common_headers` (config.rs): echoed origin, comma-joined exposed
headers, and `allow-credentials: true` when configured. -/
def Cors.common_headers (cfg : Config) (origin : HVal) : Headers :=
  let headers := insertH [] ALLOW_ORIGIN origin
  let headers := insertH headers EXPOSE_HEADERS (join_header_value cfg.exposed_headers)
  if cfg.allow_credentials then insertH headers ALLOW_CREDENTIALS (strBytes "true")
  else headers

/-- `Cors::simple` (config.rs). -/
def Cors.simple (cfg : Config) (headers : Headers) : Except CorsError Headers :=
  match getHeader headers "origin" with
  | some origin =>
    if cfg.allowed_origins.is_allowed origin then .ok (Cors.common_headers cfg origin)
    else .error .OriginNotAllowed
  | none => .ok []

/-- `is_method_allowed` (config.rs): `Method::from_bytes` then membership in
`{POST, OPTIONS}`.  Parsing is case-sensitive and a parse failure is not
allowed, so this is exact byte equality with "POST" or "OPTIONS". -/
def is_method_allowed (header : Option HVal) : Bool :=
  match header with
  | some value => value == strBytes "POST" || value == strBytes "OPTIONS"
  | none => false

/-- `Cors::preflight` (config.rs). -/
def Cors.preflight (cfg : Config) (req_headers : Headers) (origin : HVal)
    (request_headers_header : HVal) : Except CorsError Headers :=
  if !cfg.allowed_origins.is_allowed origin then .error .OriginNotAllowed
  else if !is_method_allowed (getHeader req_headers REQUEST_METHOD) then
    .error .MethodNotAllowed
  else
    let headers := Cors.common_headers cfg origin
    let headers := insertH headers ALLOW_METHODS (strBytes "POST,OPTIONS")
    let headers := insertH headers ALLOW_HEADERS request_headers_header
    match cfg.max_age with
    | some max_age => .ok (insertH headers MAX_AGE (strBytes (toString max_age)))
    | none => .ok headers

/-! ## Dispatcher (lib.rs, WebService::call) -/

/-- A request body at the dispatcher level: the raw transport stream, or that
stream wrapped in the request-direction `WebCall` decoder
(`hyper::Body::wrap_stream(WebCall::request(..))`). -/
inductive ReqBody where
  | transport (chunks : List (List Nat))
  | webDecodeWrap (encoding : Encoding) (inner : ReqBody)
deriving DecidableEq

/-- An `http::Request` as the dispatcher sees it. -/
structure HttpReq where
  headers : Headers
  method : String
  version : HttpVersion
  body : ReqBody
deriving DecidableEq

/-- A response body at the dispatcher level: the empty stream the service
builds itself, an engine-produced body, or an engine body wrapped in the
response-direction `WebCall` encoder. -/
inductive RespBody where
  | emptyStream
  | engineBody (id : Nat)
  | webEncodeWrap (encoding : Encoding) (inner : RespBody)
deriving DecidableEq

/-- An `http::Response` as the dispatcher produces it. -/
structure HttpResp where
  status : Nat
  headers : Headers
  body : RespBody
deriving DecidableEq

/-- `coerce_request` (lib.rs): strip Content-Length, force the native gRPC
content type, add `te: trailers`, normalize `accept-encoding`, and wrap the
body in the request-direction decoder. -/
def coerce_request (req : HttpReq) (encoding : Encoding) : HttpReq :=
  { req with
    headers :=
      insertH (insertH (insertH (removeH req.headers "content-length")
        "content-type" (strBytes "application/grpc"))
        "te" (strBytes "trailers"))
        "accept-encoding" (strBytes "identity,deflate,gzip")
    body := .webDecodeWrap encoding req.body }

/-- `coerce_response` (lib.rs): wrap the body in the response-direction
encoder and set the matching gRPC-Web content type. -/
def coerce_response (res : HttpResp) (encoding : Encoding) : HttpResp :=
  { res with
    headers := insertH res.headers "content-type" (strBytes encoding.to_content_type)
    body := .webEncodeWrap encoding res.body }

/-- `WebService::response`: a status with an empty body. -/
def emptyResponse (status : Nat) : HttpResp :=
  { status := status, headers := [], body := .emptyStream }

/-- `WebService::call` (lib.rs), with the inner RPC engine abstracted as a
function from requests to responses. -/
def WebService.call (cors : Config) (inner : HttpReq → HttpResp) (req : HttpReq) :
    HttpResp :=
  match RequestKind.new req.headers req.method req.version with
  | .InFlight m encoding accept =>
    if m = "POST" then
      match Cors.simple cors req.headers with
      | .ok headers =>
        let resp := coerce_response (inner (coerce_request req encoding)) accept
        { resp with headers := extendH resp.headers headers }
      | .error _ => emptyResponse 403
    else emptyResponse 405
  | .PreFlight origin request_headers =>
    match Cors.preflight cors req.headers origin request_headers with
    | .ok headers => { status := 204, headers := extendH [] headers, body := .emptyStream }
    | .error _ => emptyResponse 403
  | .Other .HTTP_2 => inner req
  | .Other _ => emptyResponse 400

/-! # Theorems -/

/-- **C1, counterexample**: the claimed literal frame for the trailer map
`{"grpc-status": "0"}` — flag `0x80`, big-endian length `0x0000000D` (13),
then the ASCII payload `"grpc-status:0\r\n"` — is not what
`make_trailers_frame` produces: the payload is 15 bytes long, so the length
field reads 15, not 13. -/
theorem c1_trailers_frame_counterexample :
    make_trailers_frame [(strBytes "grpc-status", strBytes "0")] ≠
      128 :: ([0, 0, 0, 13] ++ strBytes "grpc-status:0\r\n") := by
  decide

/-- **C1, amended**: for the trailer map `{"grpc-status": "0"}` the trailer
frame is exactly the flag byte `0x80`, the 4-byte big-endian length
`0x0000000F` (15), then the 15 ASCII bytes of `"grpc-status:0\r\n"`. -/
theorem c1_trailers_frame :
    make_trailers_frame [(strBytes "grpc-status", strBytes "0")] =
      128 :: ([0, 0, 0, 15] ++ strBytes "grpc-status:0\r\n") := by
  decide

/-- **C3**: when the source of the base64 request-direction decoder is
exhausted, a poll with an empty accumulation buffer ends the stream cleanly,
while a poll with 1-3 residual bytes fails with the malformed-encoding
internal error. -/
theorem c3_decode_exhaustion (buf : List Nat) (h : buf.length ≤ 3) :
    poll_decode buf [] =
      ((if buf.isEmpty then PollR.eos
        else PollR.perr (internal_error "malformed base64 request")), buf, []) := by
  have hc : decode_chunk buf = .ok (none, buf) := by
    unfold decode_chunk
    have hlt : buf.length < 4 := by omega
    simp [hlt]
  unfold poll_decode
  rw [hc]
  by_cases hb : buf.isEmpty <;> simp [hb]

/-- **C3, witness**: one residual byte at exhaustion is the malformed error. -/
theorem c3_decode_exhaustion_witness :
    poll_decode [81] [] =
      (PollR.perr (internal_error "malformed base64 request"), [81], []) := by
  simpa using c3_decode_exhaustion [81] (by decide)

/-- Helper for C4: the fueled encode driver on a Base64 response with data
chunks `ds` and trailers `tr`, for any sufficient fuel. -/
theorem drive_encode_fuel_b64 (ds : List (List Nat)) (tr : Option TrailerMap) :
    ∀ fuel, ds.length + 2 ≤ fuel →
      drive_encode_fuel fuel ⟨⟨ds.map Except.ok, Except.ok tr⟩, Encoding.Base64, true⟩ =
        ds.map (fun d => EncR.data (b64encode d)) ++
          (match tr with
           | some m => [EncR.trailerFrame (b64encode (make_trailers_frame m))]
           | none => []) := by
  induction ds with
  | nil =>
    intro fuel h
    match fuel, h with
    | f + 1, h =>
      cases tr with
      | none => simp [drive_encode_fuel, poll_encode]
      | some m =>
        have hf : 1 ≤ f := by omega
        match f, hf with
        | g + 1, _ => simp [drive_encode_fuel, poll_encode]
  | cons d ds ih =>
    intro fuel h
    match fuel, h with
    | f + 1, h =>
      have hrec := ih f (by simp at h ⊢; omega)
      simp only [List.map_cons, drive_encode_fuel, poll_encode, reduceIte]
      rw [hrec]
      simp

/-- **C4**: in the response direction with `encoding = Base64`, every data
chunk pulled from the inner body is base64-encoded by itself (chunk-local, not
re-blocked across chunk boundaries) and emitted in order, and the synthesized
trailer frame, when emitted, is the base64 encoding of the entire frame as one
unit. -/
theorem c4_encode_chunk_local (ds : List (List Nat)) (tr : Option TrailerMap) :
    drive_encode ⟨⟨ds.map Except.ok, Except.ok tr⟩, Encoding.Base64, true⟩ =
      ds.map (fun d => EncR.data (b64encode d)) ++
        (match tr with
         | some m => [EncR.trailerFrame (b64encode (make_trailers_frame m))]
         | none => []) := by
  have := drive_encode_fuel_b64 ds tr (ds.length + 2) (by omega)
  simpa [drive_encode] using this

/-- **C9**: the trailers step is one-shot and terminal: if a poll of the
response-direction encoder emits the synthesized trailer frame, then every
later poll — any number of further polls — yields end-of-stream and leaves the
state unchanged, so no data chunk and no second trailer frame can follow it. -/
theorem c9_trailer_frame_last (s s2 : EncodeState) (b : List Nat)
    (h : poll_encode s = (EncR.trailerFrame b, s2)) :
    ∀ n, poll_encode_iter s2 n = (EncR.eos, s2) := by
  have key : poll_encode s2 = (.eos, s2) := by
    unfold poll_encode at h ⊢
    cases hc : s.inner.chunks with
    | cons c cs =>
      rw [hc] at h
      cases c with
      | ok d =>
        by_cases he : s.encoding = Encoding.Base64 <;> simp [he] at h
      | error e => simp at h
    | nil =>
      rw [hc] at h
      by_cases hp : s.poll_trailers
      · rw [if_pos hp] at h
        cases ht : s.inner.trailers with
        | ok o =>
          cases o with
          | some m =>
            rw [ht] at h
            simp only [Prod.mk.injEq, EncR.trailerFrame.injEq] at h
            have hs2 : s2 = { s with poll_trailers := false } := h.2.symm ▸ rfl
            rw [hs2]
            simp [hc]
          | none => rw [ht] at h; simp at h
        | error e => rw [ht] at h; simp at h
      · rw [if_neg hp] at h
        simp at h
  intro n
  induction n with
  | zero => exact key
  | succ n ih =>
    show poll_encode_iter (poll_encode s2).2 n = _
    rw [key]
    exact ih

/-- **C9, witness**: a concrete response body with no data and one trailer
entry; five polls after the frame-emitting poll, the stream is still ended. -/
theorem c9_trailer_frame_last_witness :
    poll_encode_iter ⟨⟨[], Except.ok (some [([103], [48])])⟩, Encoding.None, false⟩ 5 =
      (EncR.eos, ⟨⟨[], Except.ok (some [([103], [48])])⟩, Encoding.None, false⟩) :=
  c9_trailer_frame_last ⟨⟨[], Except.ok (some [([103], [48])])⟩, Encoding.None, true⟩
    ⟨⟨[], Except.ok (some [([103], [48])])⟩, Encoding.None, false⟩
    (make_trailers_frame [([103], [48])]) (by decide) 5

/-- Header lookup skips entries filtered out under a different name. -/
theorem getHeader_filter_ne (hs : Headers) (n m : String) (hnm : m ≠ n) :
    getHeader (hs.filter fun p => p.1 != n) m = getHeader hs m := by
  induction hs with
  | nil => rfl
  | cons p ps ih =>
    by_cases hp : p.1 = n
    · have h1 : (p.1 != n) = false := by simp [hp]
      have h2 : p.1 ≠ m := by rw [hp]; exact fun h => hnm h.symm
      simp only [List.filter_cons, h1, Bool.false_eq_true, if_false, getHeader,
        if_neg h2]
      exact ih
    · have h1 : (p.1 != n) = true := by simp [hp]
      by_cases hm : p.1 = m
      · rw [List.filter_cons, if_pos h1]
        simp [getHeader, hm]
      · simp only [List.filter_cons, h1, if_true, getHeader, if_neg hm]
        exact ih

/-- `HeaderMap::insert` then `get`: the inserted name reads back the new
value; any other name is unaffected. -/
theorem getHeader_insertH (hs : Headers) (n m : String) (v : HVal) :
    getHeader (insertH hs n v) m = if m = n then some v else getHeader hs m := by
  by_cases hm : m = n
  · simp [insertH, getHeader, hm]
  · have hne : n ≠ m := fun h => hm h.symm
    simp only [insertH, getHeader, if_neg hne, if_neg hm]
    exact getHeader_filter_ne hs n m hm

/-- The header set `Cors::common_headers` builds: echoed origin, comma-joined
exposed headers, and `allow-credentials: true` exactly when configured. -/
theorem common_headers_lookup (cfg : Config) (origin : HVal) :
    getHeader (Cors.common_headers cfg origin) ALLOW_ORIGIN = some origin ∧
    getHeader (Cors.common_headers cfg origin) EXPOSE_HEADERS =
      some (join_header_value cfg.exposed_headers) ∧
    getHeader (Cors.common_headers cfg origin) ALLOW_CREDENTIALS =
      (if cfg.allow_credentials then some (strBytes "true") else none) := by
  unfold Cors.common_headers
  by_cases hc : cfg.allow_credentials <;>
    simp [hc, getHeader_insertH, getHeader, ALLOW_ORIGIN, EXPOSE_HEADERS, ALLOW_CREDENTIALS]

/-- `Cors::common_headers` contains no entry besides the three it inserts. -/
theorem common_headers_lookup_other (cfg : Config) (origin : HVal) (n : String)
    (hn1 : n ≠ ALLOW_ORIGIN) (hn2 : n ≠ EXPOSE_HEADERS) (hn3 : n ≠ ALLOW_CREDENTIALS) :
    getHeader (Cors.common_headers cfg origin) n = none := by
  unfold Cors.common_headers
  by_cases hc : cfg.allow_credentials <;>
    simp [hc, getHeader_insertH, getHeader, hn1, hn2, hn3,
      Ne.symm hn1, Ne.symm hn2, Ne.symm hn3]

/-- **C8**: the simple CORS check returns the empty header set when the
request has no Origin header; with an allowed Origin it returns a set carrying
the echoed origin, the comma-joined configured exposed headers, and
`allow-credentials: true` iff configured; with a disallowed Origin it fails
with `OriginNotAllowed`. -/
theorem c8_simple_cors (cfg : Config) (headers : Headers) :
    (getHeader headers "origin" = none → Cors.simple cfg headers = .ok []) ∧
    (∀ origin, getHeader headers "origin" = some origin →
      (cfg.allowed_origins.is_allowed origin = true →
        ∃ out, Cors.simple cfg headers = .ok out ∧
          getHeader out ALLOW_ORIGIN = some origin ∧
          getHeader out EXPOSE_HEADERS = some (join_header_value cfg.exposed_headers) ∧
          getHeader out ALLOW_CREDENTIALS =
            (if cfg.allow_credentials then some (strBytes "true") else none)) ∧
      (cfg.allowed_origins.is_allowed origin = false →
        Cors.simple cfg headers = .error CorsError.OriginNotAllowed)) := by
  refine ⟨fun hn => ?_, fun origin ho => ⟨fun hallow => ?_, fun hdeny => ?_⟩⟩
  · simp [Cors.simple, hn]
  · refine ⟨Cors.common_headers cfg origin, ?_, (common_headers_lookup cfg origin).1,
      (common_headers_lookup cfg origin).2.1, (common_headers_lookup cfg origin).2.2⟩
    simp [Cors.simple, ho, hallow]
  · simp [Cors.simple, ho, hdeny]

/-- **C8, witness**: an allow-listed origin with the default remaining
configuration. -/
theorem c8_simple_cors_witness :
    ∃ out,
      Cors.simple
          ⟨.Only [strBytes "http://foo.com"], ["grpc-status", "grpc-message"], some 86400, true⟩
          [("origin", strBytes "http://foo.com")] = .ok out ∧
        getHeader out ALLOW_ORIGIN = some (strBytes "http://foo.com") ∧
        getHeader out EXPOSE_HEADERS = some (join_header_value ["grpc-status", "grpc-message"]) ∧
        getHeader out ALLOW_CREDENTIALS =
          (if (true : Bool) then some (strBytes "true") else none) :=
  ((c8_simple_cors
      ⟨.Only [strBytes "http://foo.com"], ["grpc-status", "grpc-message"], some 86400, true⟩
      [("origin", strBytes "http://foo.com")]).2
    (strBytes "http://foo.com") (by decide)).1 (by decide)

/-- **C7**: the preflight CORS check fails with `OriginNotAllowed` for a
disallowed origin; with an allowed origin it fails with `MethodNotAllowed`
when the `access-control-request-method` header is absent or names neither
POST nor OPTIONS, and otherwise succeeds with the simple-style header set
extended with `allow-methods: POST,OPTIONS`, `allow-headers` echoing the
requested-headers value verbatim, and `max-age` in whole seconds exactly when
one is configured. -/
theorem c7_preflight_cors (cfg : Config) (req_headers : Headers) (origin rh : HVal) :
    (cfg.allowed_origins.is_allowed origin = false →
      Cors.preflight cfg req_headers origin rh = .error CorsError.OriginNotAllowed) ∧
    (cfg.allowed_origins.is_allowed origin = true →
      ((∀ v, getHeader req_headers REQUEST_METHOD = some v →
          v ≠ strBytes "POST" ∧ v ≠ strBytes "OPTIONS") →
        Cors.preflight cfg req_headers origin rh = .error CorsError.MethodNotAllowed) ∧
      (∀ v, getHeader req_headers REQUEST_METHOD = some v →
        (v = strBytes "POST" ∨ v = strBytes "OPTIONS") →
        ∃ out, Cors.preflight cfg req_headers origin rh = .ok out ∧
          getHeader out ALLOW_METHODS = some (strBytes "POST,OPTIONS") ∧
          getHeader out ALLOW_HEADERS = some rh ∧
          getHeader out MAX_AGE = cfg.max_age.map (fun a => strBytes (toString a)) ∧
          getHeader out ALLOW_ORIGIN = some origin ∧
          getHeader out EXPOSE_HEADERS = some (join_header_value cfg.exposed_headers) ∧
          getHeader out ALLOW_CREDENTIALS =
            (if cfg.allow_credentials then some (strBytes "true") else none))) := by
  refine ⟨fun hdeny => ?_, fun hallow => ⟨fun hbad => ?_, fun v hv hpm => ?_⟩⟩
  · simp [Cors.preflight, hdeny]
  · have hm : is_method_allowed (getHeader req_headers REQUEST_METHOD) = false := by
      unfold is_method_allowed
      cases hg : getHeader req_headers REQUEST_METHOD with
      | none => rfl
      | some v =>
        have := hbad v hg
        simp [this.1, this.2]
    simp [Cors.preflight, hallow, hm]
  · have hm : is_method_allowed (getHeader req_headers REQUEST_METHOD) = true := by
      unfold is_method_allowed
      rw [hv]
      rcases hpm with h | h <;> simp [h]
    obtain ⟨h1, h2, h3⟩ := common_headers_lookup cfg origin
    have h4 := common_headers_lookup_other cfg origin MAX_AGE (by decide) (by decide) (by decide)
    simp only [ALLOW_ORIGIN, EXPOSE_HEADERS, ALLOW_CREDENTIALS, MAX_AGE] at h1 h2 h3 h4
    cases hma : cfg.max_age with
    | none =>
      refine ⟨insertH (insertH (Cors.common_headers cfg origin) ALLOW_METHODS
          (strBytes "POST,OPTIONS")) ALLOW_HEADERS rh, ?_, ?_, ?_, ?_, ?_, ?_, ?_⟩
      · simp [Cors.preflight, hallow, hm, hma]
      all_goals
        simp [getHeader_insertH, ALLOW_METHODS, ALLOW_HEADERS, MAX_AGE, ALLOW_ORIGIN,
          EXPOSE_HEADERS, ALLOW_CREDENTIALS, hma, h1, h2, h3, h4]
    | some a =>
      refine ⟨insertH (insertH (insertH (Cors.common_headers cfg origin) ALLOW_METHODS
          (strBytes "POST,OPTIONS")) ALLOW_HEADERS rh) MAX_AGE (strBytes (toString a)),
          ?_, ?_, ?_, ?_, ?_, ?_, ?_⟩
      · simp [Cors.preflight, hallow, hm, hma]
      all_goals
        simp [getHeader_insertH, ALLOW_METHODS, ALLOW_HEADERS, MAX_AGE, ALLOW_ORIGIN,
          EXPOSE_HEADERS, ALLOW_CREDENTIALS, hma, h1, h2, h3, h4]

/-- **C7, witness**: default config, allowed origin, requested method POST. -/
theorem c7_preflight_cors_witness :
    ∃ out,
      Cors.preflight ⟨.Any, ["grpc-status", "grpc-message"], some 86400, true⟩
          [(REQUEST_METHOD, strBytes "POST")] (strBytes "http://foo.com")
          (strBytes "x-grpc-web") = .ok out ∧
        getHeader out ALLOW_METHODS = some (strBytes "POST,OPTIONS") ∧
        getHeader out ALLOW_HEADERS = some (strBytes "x-grpc-web") ∧
        getHeader out MAX_AGE = (some 86400).map (fun a => strBytes (toString a)) ∧
        getHeader out ALLOW_ORIGIN = some (strBytes "http://foo.com") ∧
        getHeader out EXPOSE_HEADERS = some (join_header_value ["grpc-status", "grpc-message"]) ∧
        getHeader out ALLOW_CREDENTIALS =
          (if (true : Bool) then some (strBytes "true") else none) :=
  ((c7_preflight_cors ⟨.Any, ["grpc-status", "grpc-message"], some 86400, true⟩
        [(REQUEST_METHOD, strBytes "POST")] (strBytes "http://foo.com")
        (strBytes "x-grpc-web")).2 (by decide)).2
    (strBytes "POST") (by decide) (Or.inl rfl)

/-- The classifier's content-type test equals the spec's membership test in
the four recognized media types. -/
theorem isGrpcWebContentType_eq (headers : Headers) :
    isGrpcWebContentType headers =
      ((getHeader headers "content-type").bind hvalToStr).any
        (fun s => recognizedMediaTypes.contains s) := by
  unfold isGrpcWebContentType
  cases (getHeader headers "content-type").bind hvalToStr with
  | none => rfl
  | some s =>
    rw [Bool.eq_iff_iff]
    simp [recognizedMediaTypes, List.contains_cons, or_assoc]

/-- `Encoding::from_header` implements the spec's rule: `Base64` iff the value
is a `-text` variant. -/
theorem from_header_eq_spec (v : Option HVal) :
    Encoding.from_header v = encodingSpecRule v := by
  cases hv : v.bind hvalToStr with
  | none => simp only [Encoding.from_header, encodingSpecRule, hv]
  | some s =>
    simp only [Encoding.from_header, encodingSpecRule, hv]
    by_cases h : s = GRPC_WEB_TEXT_PROTO ∨ s = GRPC_WEB_TEXT
    · rw [if_pos h]
      rcases h with h | h <;> subst h <;> decide
    · have hc : ¬ (textVariants.contains s = true) := by
        simp only [textVariants, List.contains_cons, List.contains_nil,
          Bool.or_false, Bool.or_eq_true, beq_iff_eq]
        push_neg at h
        simp [h.1, h.2]
      rw [if_neg h, if_neg hc]

/-- **C5**: request classification is the pure function of headers, method and
HTTP version the spec describes: `InFlight` (with the encodings derived by the
"-text iff Base64" rule from Content-Type and Accept) exactly when the
Content-Type is one of the four recognized gRPC-Web media types; otherwise
`PreFlight` carrying the origin and the raw requested-headers value exactly
when the method is OPTIONS and both an Origin and an
`access-control-request-headers` header are present with the latter's value
containing `x-grpc-web`; otherwise `Other` carrying the HTTP version. -/
theorem c5_classifier (headers : Headers) (method : String) (version : HttpVersion) :
    RequestKind.new headers method version = classifySpec headers method version := by
  unfold RequestKind.new classifySpec
  rw [← isGrpcWebContentType_eq]
  by_cases hct : isGrpcWebContentType headers
  · simp [hct, Encoding.from_content_type, Encoding.from_accept, from_header_eq_spec]
  · simp only [hct, Bool.false_eq_true, if_false]
    by_cases hm : method = "OPTIONS"
    · subst hm
      simp only [beq_self_eq_true, if_true]
      cases ho : getHeader headers "origin" with
      | none =>
        cases ha : getHeader headers "access-control-request-headers" <;> rfl
      | some origin =>
        cases ha : getHeader headers "access-control-request-headers" with
        | none => rfl
        | some value =>
          show (match hvalToStr value with
            | some h => if strContains h "x-grpc-web" then RequestKind.PreFlight origin value
                        else RequestKind.Other version
            | none => RequestKind.Other version) = _
          cases hs : hvalToStr value with
          | none => simp [hs]
          | some h => simp [hs]
    · have hb : (method == "OPTIONS") = false := beq_eq_false_iff_ne.mpr hm
      simp only [hb, Bool.false_eq_true, if_false]
      split
      · simp_all
      · rfl

/-- **C6**: the dispatcher maps request kinds to HTTP statuses as specified:
an InFlight POST whose simple CORS check fails gets 403 with an empty body and
the engine is not invoked (the result is the same constant for every engine);
an InFlight request with any other method gets 405 with an empty body; a
PreFlight request gets 204 with the preflight headers on success and 403 on
failure; an Other request over HTTP/2 is passed through unmodified to the
engine; an Other request over any other version gets 400 with an empty body
without invoking the engine. -/
theorem c6_dispatcher (cors : Config) (engine : HttpReq → HttpResp) (req : HttpReq) :
    (∀ m enc acc, RequestKind.new req.headers req.method req.version = .InFlight m enc acc →
      ((m = "POST" → ∀ e, Cors.simple cors req.headers = .error e →
          WebService.call cors engine req = emptyResponse 403) ∧
       (m ≠ "POST" → WebService.call cors engine req = emptyResponse 405))) ∧
    (∀ origin rh, RequestKind.new req.headers req.method req.version = .PreFlight origin rh →
      ((∀ hs, Cors.preflight cors req.headers origin rh = .ok hs →
          WebService.call cors engine req =
            { status := 204, headers := extendH [] hs, body := .emptyStream }) ∧
       (∀ e, Cors.preflight cors req.headers origin rh = .error e →
          WebService.call cors engine req = emptyResponse 403))) ∧
    (RequestKind.new req.headers req.method req.version = .Other .HTTP_2 →
      WebService.call cors engine req = engine req) ∧
    (∀ v, v ≠ HttpVersion.HTTP_2 →
      RequestKind.new req.headers req.method req.version = .Other v →
      WebService.call cors engine req = emptyResponse 400) := by
  refine ⟨fun m enc acc hk => ⟨fun hp e he => ?_, fun hnp => ?_⟩,
    fun origin rh hk => ⟨fun hs hok => ?_, fun e he => ?_⟩, fun hk => ?_, fun v hv hk => ?_⟩
  · unfold WebService.call
    rw [hk]
    subst hp
    simp [he]
  · unfold WebService.call
    rw [hk]
    simp [hnp]
  · unfold WebService.call
    rw [hk]
    simp [hok]
  · unfold WebService.call
    rw [hk]
    simp [he]
  · unfold WebService.call
    rw [hk]
  · unfold WebService.call
    rw [hk]
    cases v with
    | HTTP_2 => exact absurd rfl hv
    | HTTP_09 => rfl
    | HTTP_10 => rfl
    | HTTP_11 => rfl
    | HTTP_3 => rfl

/-- **C6, witness**: a plain HTTP/1.1 GET is answered 400 with an empty body,
for a concrete engine that would answer 200. -/
theorem c6_dispatcher_witness :
    WebService.call ⟨.Any, ["grpc-status", "grpc-message"], some 86400, true⟩
        (fun _ => { status := 200, headers := [], body := .engineBody 0 })
        ⟨[], "GET", .HTTP_11, .transport []⟩ = emptyResponse 400 :=
  (c6_dispatcher ⟨.Any, ["grpc-status", "grpc-message"], some 86400, true⟩
      (fun _ => { status := 200, headers := [], body := .engineBody 0 })
      ⟨[], "GET", .HTTP_11, .transport []⟩).2.2.2 .HTTP_11 (by decide) (by decide)

/-- A 4-byte group that decodes with `isLast = false` contains no padding, so
it decodes to the same bytes under any `isLast` flag. -/
theorem decodeGroup_false_eq_some (c1 c2 c3 c4 : Nat) (bs : List Nat) (flag : Bool)
    (h : decodeGroup c1 c2 c3 c4 false = some bs) :
    decodeGroup c1 c2 c3 c4 flag = some bs := by
  revert h
  unfold decodeGroup
  cases b64DecChar c1 with
  | none => intro h; simp at h
  | some v1 =>
  cases b64DecChar c2 with
  | none => intro h; simp at h
  | some v2 =>
  by_cases h3 : c3 = 61
  · simp [h3]
  · simp only [h3, if_false]
    cases b64DecChar c3 with
    | none => intro h; simp at h
    | some v3 =>
    by_cases h4 : c4 = 61
    · simp [h4]
    · simp only [h4, if_false]
      exact id

/-- Splitting a decodable base64 string at any group boundary splits its
decoding. -/
theorem b64decode_append : ∀ (a b out : List Nat), a.length % 4 = 0 →
    b64decode (a ++ b) = some out →
    ∃ oa ob, b64decode a = some oa ∧ b64decode b = some ob ∧ out = oa ++ ob
  | [], b, out, _, h => ⟨[], out, rfl, h, rfl⟩
  | [_], _, _, h4, _ => by simp at h4
  | [_, _], _, _, h4, _ => by simp at h4
  | [_, _, _], _, _, h4, _ => by simp at h4
  | c1 :: c2 :: c3 :: c4 :: a2, b, out, h4, h => by
    have hcons : (c1 :: c2 :: c3 :: c4 :: a2) ++ b = c1 :: c2 :: c3 :: c4 :: (a2 ++ b) := rfl
    rw [hcons] at h
    unfold b64decode at h
    cases hg : decodeGroup c1 c2 c3 c4 (a2 ++ b).isEmpty with
    | none => rw [hg] at h; simp at h
    | some bs =>
      cases hr : b64decode (a2 ++ b) with
      | none => rw [hg, hr] at h; simp at h
      | some more =>
        rw [hg, hr] at h
        simp only [Option.some.injEq] at h
        have ha2 : a2.length % 4 = 0 := by
          simp only [List.length_cons] at h4
          omega
        obtain ⟨oa2, ob, hda2, hdb, hmore⟩ := b64decode_append a2 b more ha2 hr
        have hgflag : decodeGroup c1 c2 c3 c4 a2.isEmpty = some bs := by
          by_cases hab : (a2 ++ b).isEmpty = true
          · have hanil : a2 = [] := by
              rw [List.isEmpty_iff, List.append_eq_nil] at hab
              exact hab.1
            rw [hab] at hg
            rw [hanil]
            exact hg
          · have hflag : (a2 ++ b).isEmpty = false := by
              simpa using hab
            rw [hflag] at hg
            exact decodeGroup_false_eq_some c1 c2 c3 c4 bs _ hg
        refine ⟨bs ++ oa2, ob, ?_, hdb, ?_⟩
        · unfold b64decode
          rw [hgflag, hda2]
        · rw [← h, hmore, List.append_assoc]

/-- Completeness of the re-blocking decode loop: if the buffered bytes
followed by all remaining source data form a decodable base64 string, driving
the decoder to exhaustion succeeds and the emitted chunks concatenate to its
decoding. -/
theorem drive_decode_complete (buf : List Nat) (chunks : List (List Nat)) (out : List Nat)
    (h : b64decode (buf ++ chunks.flatten) = some out) :
    ∃ outs, drive_decode buf (chunks.map Except.ok) = .ok outs ∧ outs.flatten = out := by
  by_cases hsmall : buf.isEmpty || buf.length < 4
  · cases chunks with
    | nil =>
      have hb : buf = [] := by
        have hlen : buf.length < 4 := by
          rcases Bool.or_eq_true_iff.mp hsmall with h1 | h1
          · rw [List.isEmpty_iff.mp h1]
            decide
          · exact of_decide_eq_true h1
        match buf, hlen with
        | [], _ => rfl
        | [d1], _ => simp [b64decode] at h
        | [d1, d2], _ => simp [b64decode] at h
        | [d1, d2, d3], _ => simp [b64decode] at h
      subst hb
      simp only [List.nil_append, List.flatten_nil, b64decode] at h
      refine ⟨[], ?_, ?_⟩
      · rw [drive_decode.eq_def]
        simp
      · simp only [List.flatten_nil]
        exact Option.some.inj h
    | cons c cs =>
      have hassoc : buf ++ (c :: cs).flatten = (buf ++ c) ++ cs.flatten := by
        rw [List.flatten_cons, List.append_assoc]
      rw [hassoc] at h
      obtain ⟨outs, hd, hf⟩ := drive_decode_complete (buf ++ c) cs out h
      refine ⟨outs, ?_, hf⟩
      rw [List.map_cons, drive_decode.eq_def, dif_pos hsmall]
      exact hd
  · have h4 : (buf.take (maxDecodable buf)).length % 4 = 0 := by
      have hml : maxDecodable buf ≤ buf.length := by
        unfold maxDecodable
        omega
      simp only [List.length_take]
      unfold maxDecodable
      omega
    have hre : buf ++ chunks.flatten =
        buf.take (maxDecodable buf) ++ (buf.drop (maxDecodable buf) ++ chunks.flatten) := by
      rw [← List.append_assoc, List.take_append_drop]
    rw [hre] at h
    obtain ⟨oa, ob, hda, hdb, hout⟩ := b64decode_append _ _ _ h4 h
    obtain ⟨outs, hdd, hfl⟩ := drive_decode_complete (buf.drop (maxDecodable buf)) chunks ob hdb
    refine ⟨oa :: outs, ?_, ?_⟩
    · rw [drive_decode.eq_def, dif_neg hsmall, hda, hdd]
    · rw [List.flatten_cons, hfl, hout]
termination_by (chunks.length, buf.length)
decreasing_by
  · rename_i heq
    subst heq
    exact Prod.Lex.left _ _ (by simp)
  · apply Prod.Lex.right
    replace hsmall : ¬ (buf.isEmpty || decide (buf.length < 4)) = true := hsmall
    simp only [Bool.or_eq_true, decide_eq_true_eq, List.isEmpty_iff,
      not_or, not_lt] at hsmall
    have hm : 4 ≤ maxDecodable buf := by
      unfold maxDecodable
      omega
    have hml : maxDecodable buf ≤ buf.length := by
      unfold maxDecodable
      omega
    simp only [List.length_drop]
    omega

/-- `drive_decode` is `poll_decode` iterated: one poll yields either an item
followed by the rest of the drive, an error, or end of stream. -/
theorem drive_decode_poll_step (buf : List Nat) (chunks : List SourceChunk) :
    drive_decode buf chunks =
      match poll_decode buf chunks with
      | (.item d, buf2, chunks2) =>
        match drive_decode buf2 chunks2 with
        | .ok outs => .ok (d :: outs)
        | .error e => .error e
      | (.perr e, _, _) => .error e
      | (.eos, _, _) => .ok [] := by
  induction chunks generalizing buf with
  | nil =>
    by_cases hs : buf.isEmpty || buf.length < 4
    · have hdc : decode_chunk buf = .ok (none, buf) := by
        unfold decode_chunk
        rw [if_pos hs]
      rw [drive_decode.eq_def, dif_pos hs, poll_decode.eq_def, hdc]
      by_cases hb : buf.isEmpty <;> simp [hb]
    · cases hbd : b64decode (buf.take (maxDecodable buf)) with
      | some d =>
        have hdc : decode_chunk buf = .ok (some d, buf.drop (maxDecodable buf)) := by
          unfold decode_chunk
          rw [if_neg hs, hbd]
        rw [drive_decode.eq_def, dif_neg hs, hbd, poll_decode.eq_def, hdc]
      | none =>
        have hdc : decode_chunk buf = .error (internal_error "invalid base64") := by
          unfold decode_chunk
          rw [if_neg hs, hbd]
        rw [drive_decode.eq_def, dif_neg hs, hbd, poll_decode.eq_def, hdc]
  | cons ch cs ih =>
    by_cases hs : buf.isEmpty || buf.length < 4
    · have hdc : decode_chunk buf = .ok (none, buf) := by
        unfold decode_chunk
        rw [if_pos hs]
      cases ch with
      | ok c =>
        rw [drive_decode.eq_def, dif_pos hs, poll_decode.eq_def, hdc]
        exact ih (buf ++ c)
      | error e =>
        rw [drive_decode.eq_def, dif_pos hs, poll_decode.eq_def, hdc]
    · cases hbd : b64decode (buf.take (maxDecodable buf)) with
      | some d =>
        have hdc : decode_chunk buf = .ok (some d, buf.drop (maxDecodable buf)) := by
          unfold decode_chunk
          rw [if_neg hs, hbd]
        rw [drive_decode.eq_def, dif_neg hs, hbd, poll_decode.eq_def, hdc]
      | none =>
        have hdc : decode_chunk buf = .error (internal_error "invalid base64") := by
          unfold decode_chunk
          rw [if_neg hs, hbd]
        rw [drive_decode.eq_def, dif_neg hs, hbd, poll_decode.eq_def, hdc]

/-- **C2**: for every byte string that is a decodable (canonically padded)
base64 text and every way of splitting it into a finite sequence of non-empty
chunks, pulling the request-direction Base64 decoder to exhaustion over those
chunks succeeds and the emitted output chunks concatenate to exactly the
base64 decoding of the whole text, wherever the chunk boundaries fall. -/
theorem c2_base64_chunked_decode (text : List Nat) (chunks : List (List Nat))
    (out : List Nat) (hne : ∀ c ∈ chunks, c ≠ [])
    (hsplit : chunks.flatten = text) (hvalid : b64decode text = some out) :
    ∃ outs, drive_decode [] (chunks.map Except.ok) = .ok outs ∧ outs.flatten = out := by
  apply drive_decode_complete
  simpa [hsplit] using hvalid

/-- **C2, witness**: the text `"QUJD"` split as `["QU", "JD"]` decodes to
`"ABC"`. -/
theorem c2_base64_chunked_decode_witness :
    ∃ outs, drive_decode [] ([[81, 85], [74, 68]].map Except.ok) = .ok outs ∧
      outs.flatten = [65, 66, 67] :=
  c2_base64_chunked_decode (strBytes "QUJD") [[81, 85], [74, 68]] [65, 66, 67]
    (by decide) (by decide) (by decide)

/-- **C10**: the transcoding body wrapper never exposes native HTTP trailers:
for every `WebCall` state (any inner body, buffer, direction, encoding, flag),
`Body::poll_trailers` answers ready with `Ok(None)`. -/
theorem c10_body_poll_trailers_none (s : WebCallModel) :
    s.body_poll_trailers = Except.ok none := rfl

end GrpcWeb
